import Mathlib

/-!
Verification of the SMS parsing + rule-based enrichment + deduplication
pipeline of the expense-tracker service (`src/main.py`).

The embedding is shallow: each Python function of the pipeline becomes a
total Lean function over explicit state.  Conventions used throughout:

* Strings are ASCII in all observed SMS traffic; Python's Unicode-aware
  `str.strip()`, `str.lower()` and the regex classes `\s`, `\w`, `\d` are
  modelled at their ASCII behaviour.
* `hashlib.sha256(...).hexdigest()` is used by the code purely as an
  identity key.  It is modelled as an injective function of the input
  string (the identity), the standard collision-freedom abstraction for
  hash-based identity.
* Python `float` values produced by `float(<decimal literal>)` are
  modelled exactly by `PyFloat`: an integer part and the fractional digit
  string with trailing zeros removed, which identifies decimal literals
  precisely when their numeric values coincide.
* `datetime.now(timezone.utc)` is an explicit parameter (`now`).
* User-supplied rule regexes (the `match_type = "regex"` branch of
  `apply_rules`) are abstracted as a parameter
  `regexTest : String → String → Bool`; the pipeline is verified for all
  such oracles.
* The SQLite store is a list of rows plus the rules table and the next
  AUTOINCREMENT id; the two unique indexes on `hash` and `sms_hash` are
  modelled in the insert step.
-/

/-- Characters treated as whitespace by Python's `str.strip()` and by the
regex class `\s`, at their ASCII fragment. -/
def pyWsChar (c : Char) : Bool :=
  c == ' ' || c == '\t' || c == '\n' || c == '\r' || c == '\x0B' || c == '\x0C'

/-- Drop characters satisfying `p` from both ends of a character list. -/
def stripEndsOn (p : Char → Bool) (l : List Char) : List Char :=
  ((l.dropWhile p).reverse.dropWhile p).reverse

/-- Python `str.strip()` (no argument): remove leading and trailing
whitespace. -/
def pyStrip (s : String) : String := ⟨stripEndsOn pyWsChar s.data⟩

/-- Python `str.strip(",")`: remove leading and trailing commas. -/
def pyStripCommas (s : String) : String := ⟨stripEndsOn (· == ',') s.data⟩

/-- Python `str.lower()` at its ASCII fragment. -/
def pyLower (s : String) : String := ⟨s.data.map Char.toLower⟩

/-- Substring test on character lists; Python's `needle in hay`.  The empty
needle is contained in every haystack, as in Python. -/
def strContainsL : List Char → List Char → Bool
  | [], needle => needle.isEmpty
  | c :: t, needle => needle.isPrefixOf (c :: t) || strContainsL t needle

/-- Python's `needle in hay` on strings. -/
def strContains (hay needle : String) : Bool := strContainsL hay.data needle.data

/-- Membership in the regex class `\w` (ASCII fragment). -/
def isWordChar (c : Char) : Bool := c.isAlphanum || c == '_'

/-- Split a list into its maximal leading run of characters satisfying `p`
and the remainder. -/
def takeRun (p : Char → Bool) : List Char → List Char × List Char
  | [] => ([], [])
  | c :: t =>
    if p c then
      let r := takeRun p t
      (c :: r.1, r.2)
    else ([], c :: t)

/-- Match a literal prefix, returning the remainder on success. -/
def dropPrefixL : List Char → List Char → Option (List Char)
  | [], l => some l
  | _ :: _, [] => none
  | p :: ps, c :: cs => if p == c then dropPrefixL ps cs else none

/-- Match a literal prefix case-insensitively (regex `re.IGNORECASE`,
ASCII fragment), returning the remainder on success. -/
def dropPrefixCI : List Char → List Char → Option (List Char)
  | [], l => some l
  | _ :: _, [] => none
  | p :: ps, c :: cs => if p.toLower == c.toLower then dropPrefixCI ps cs else none

/-- Numeric value of a decimal digit character. -/
def digitVal (c : Char) : Nat := c.toNat - '0'.toNat

/-- Numeric value of a list of decimal digit characters. -/
def natOfDigits (l : List Char) : Nat := l.foldl (fun a c => a * 10 + digitVal c) 0

/-- Match exactly `n` decimal digits (regex `\d{n}`), returning the digits
and the remainder. -/
def exactDigits : Nat → List Char → Option (List Char × List Char)
  | 0, l => some ([], l)
  | _ + 1, [] => none
  | n + 1, c :: t =>
    if c.isDigit then (exactDigits n t).map (fun r => (c :: r.1, r.2)) else none

/-- The value `float(<decimal literal>)` in canonical form: integer part
and fractional digits with trailing zeros removed.  Two decimal literals
denote the same Python float exactly when they map to the same `PyFloat`
(e.g. `float("3.50") == float("3.5")`). -/
structure PyFloat where
  intPart : Nat
  fracDigits : List Char
deriving DecidableEq, Repr

/-- Remove trailing `'0'` characters. -/
def stripTrailingZeros (l : List Char) : List Char :=
  (l.reverse.dropWhile (· == '0')).reverse

/-- Build the float value of a matched decimal literal from its integer
digits and (possibly empty) fractional digits. -/
def PyFloat.ofDigits (ip fr : List Char) : PyFloat :=
  ⟨natOfDigits ip, stripTrailingZeros fr⟩

/-- The float `0.0`. -/
def PyFloat.zero : PyFloat := ⟨0, []⟩

/-- Python `str(<float>)` for the floats arising here: `str(3.0) = "3.0"`,
`str(3.5) = "3.5"`.  Injective on `PyFloat` values, as `str` is injective
on Python float values. -/
def pyFloatStr (a : PyFloat) : String :=
  toString a.intPart ++ "." ++ (if a.fracDigits.isEmpty then "0" else (⟨a.fracDigits⟩ : String))

/-- A UTC timestamp as carried by `datetime` objects in the code. -/
structure PyDateTime where
  year : Nat
  month : Nat
  day : Nat
  hour : Nat
  minute : Nat
  second : Nat
  microsecond : Nat
deriving DecidableEq, Repr

/-- Decimal rendering of `n` left-padded with zeros to width `w`. -/
def padNat (w n : Nat) : String :=
  let s := toString n
  (⟨List.replicate (w - s.length) '0'⟩ : String) ++ s

/-- `datetime.isoformat()` for a UTC datetime: the fractional part appears
only when the microsecond field is nonzero. -/
def isoOfDateTime (d : PyDateTime) : String :=
  padNat 4 d.year ++ "-" ++ padNat 2 d.month ++ "-" ++ padNat 2 d.day ++ "T" ++
  padNat 2 d.hour ++ ":" ++ padNat 2 d.minute ++ ":" ++ padNat 2 d.second ++
  (if d.microsecond == 0 then "" else "." ++ padNat 6 d.microsecond) ++ "+00:00"

/-- `datetime.strftime("%Y-%m-%d %H:%M:%S")`. -/
def strftimeRaw (d : PyDateTime) : String :=
  padNat 4 d.year ++ "-" ++ padNat 2 d.month ++ "-" ++ padNat 2 d.day ++ " " ++
  padNat 2 d.hour ++ ":" ++ padNat 2 d.minute ++ ":" ++ padNat 2 d.second

/-- Gregorian leap-year test, as used by `datetime`. -/
def isLeapYear (y : Nat) : Bool := y % 4 == 0 && (y % 100 != 0 || y % 400 == 0)

/-- Number of days in a month, as validated by `datetime`. -/
def daysInMonth (y m : Nat) : Nat :=
  if m == 2 then (if isLeapYear y then 29 else 28)
  else if m == 4 || m == 6 || m == 9 || m == 11 then 30
  else 31

/-- Success condition of `datetime.strptime(s, "%Y-%m-%d %H:%M:%S")` on a
string already matched by `DATE_RE`: the numeric fields must denote a real
calendar instant (`datetime` has `MINYEAR = 1`; the four-digit year is at
most 9999 by construction; leap seconds are rejected by the `datetime`
constructor). -/
def strptimeOk (d : PyDateTime) : Bool :=
  decide (1 ≤ d.year) && decide (1 ≤ d.month) && decide (d.month ≤ 12) &&
  decide (1 ≤ d.day) && decide (d.day ≤ daysInMonth d.year d.month) &&
  decide (d.hour ≤ 23) && decide (d.minute ≤ 59) && decide (d.second ≤ 59)

/-- The regex boundary `\b` placed after a word character: it succeeds when
the remaining text is empty or starts with a non-word character. -/
def wordBreakOk (l : List Char) : Bool :=
  match l with
  | [] => true
  | c :: _ => !isWordChar c

/-!
## Currency and amount extraction

`parse_sms` runs `re.search(rf"\b(KWD|USD|EUR)\s+([0-9]+(?:\.[0-9]+)?)\b", txt)`
(case-sensitive).  The model implements the exact backtracking semantics of
this pattern: the three alternatives start with distinct letters so at most
one can apply at a position; `\s+` must take the maximal whitespace run
(a shorter run leaves a whitespace character where a digit is required);
`[0-9]+` must take the maximal digit run (a shorter run leaves a digit
where `\b` or `.` is required); if the trailing `\b` fails after the
optional fractional group, the engine drops the group (the following `.`
then satisfies `\b`).
-/

/-- Match `\s+([0-9]+(?:\.[0-9]+)?)\b` at the start of `l`, returning the
float value of the amount group. -/
def matchAmountTail (l : List Char) : Option PyFloat :=
  let ws := takeRun pyWsChar l
  if ws.1.isEmpty then none
  else
    let d1 := takeRun Char.isDigit ws.2
    if d1.1.isEmpty then none
    else
      match d1.2 with
      | '.' :: r3 =>
        let d2 := takeRun Char.isDigit r3
        if d2.1.isEmpty then some (PyFloat.ofDigits d1.1 [])
        else if wordBreakOk d2.2 then some (PyFloat.ofDigits d1.1 d2.1)
        else some (PyFloat.ofDigits d1.1 [])
      | r2 => if wordBreakOk r2 then some (PyFloat.ofDigits d1.1 []) else none

/-- Try the currency-amount pattern at the current position; `prevIsWord`
records whether the preceding character is a word character (for the
leading `\b`). -/
def matchCurAmtAt (prevIsWord : Bool) (l : List Char) : Option (String × PyFloat) :=
  if prevIsWord then none
  else
    match dropPrefixL "KWD".data l with
    | some r => (matchAmountTail r).map (fun a => ("KWD", a))
    | none =>
      match dropPrefixL "USD".data l with
      | some r => (matchAmountTail r).map (fun a => ("USD", a))
      | none =>
        match dropPrefixL "EUR".data l with
        | some r => (matchAmountTail r).map (fun a => ("EUR", a))
        | none => none

/-- Leftmost search for the currency-amount pattern (`re.search`). -/
def searchCurAmtAux : Bool → List Char → Option (String × PyFloat)
  | _, [] => none
  | prevW, c :: t =>
    match matchCurAmtAt prevW (c :: t) with
    | some r => some r
    | none => searchCurAmtAux (isWordChar c) t

/-- `re.search(rf"\b(KWD|USD|EUR)\s+([0-9]+(?:\.[0-9]+)?)\b", txt)`. -/
def searchCurAmt (l : List Char) : Option (String × PyFloat) := searchCurAmtAux false l

/-!
## Merchant extraction

`parse_sms` runs `re.search(r"\bfor\s+(.+?)(?:\s+on\s+\d{4}-\d{2}-\d{2}\b|$)",
txt, re.IGNORECASE)` and, when that fails, the same pattern with `from`.
The input `txt` is `sms.strip()`, so it has no leading or trailing
whitespace and `$` matches exactly at the end of the string.  The engine
explores `\s+` runs longest-first and the lazy group `(.+?)` shortest-first;
`.` does not match a newline.
-/

/-- The date alternative of the tail group:
`\s+on\s+\d{4}-\d{2}-\d{2}\b` (case-insensitive `on`).  Both `\s+` runs are
forced maximal because they are followed by non-whitespace requirements. -/
def dateTailOk (l : List Char) : Bool :=
  let w1 := takeRun pyWsChar l
  if w1.1.isEmpty then false
  else
    match dropPrefixCI "on".data w1.2 with
    | none => false
    | some r2 =>
      let w2 := takeRun pyWsChar r2
      if w2.1.isEmpty then false
      else
        match exactDigits 4 w2.2 with
        | none => false
        | some y =>
          match y.2 with
          | '-' :: r5 =>
            match exactDigits 2 r5 with
            | none => false
            | some mo =>
              match mo.2 with
              | '-' :: r7 =>
                match exactDigits 2 r7 with
                | none => false
                | some d => wordBreakOk d.2
              | _ => false
          | _ => false

/-- The tail group `(?:\s+on\s+\d{4}-\d{2}-\d{2}\b|$)` evaluated at the text
following the lazy group (`$` is the end of the stripped string). -/
def merchTailOk (l : List Char) : Bool := dateTailOk l || l.isEmpty

/-- Lazy expansion of `(.+?)`: grow the group one character at a time,
stopping at a newline (which `.` cannot match), and return the first group
for which the tail matches. -/
def lazyGroup (gAcc : List Char) : List Char → Option (List Char)
  | [] => none
  | c :: rest =>
    if c == '\n' then none
    else if merchTailOk rest then some (gAcc ++ [c])
    else lazyGroup (gAcc ++ [c]) rest

/-- Backtracking over the length of the `\s+` run after the keyword:
longest first, at least one character. -/
def wsBacktrack (r : List Char) : Nat → Option (List Char)
  | 0 => none
  | k + 1 =>
    match lazyGroup [] (r.drop (k + 1)) with
    | some g => some g
    | none => wsBacktrack r k

/-- Try `\b<kw>\s+(.+?)(?:\s+on\s+\d{4}-\d{2}-\d{2}\b|$)` at the current
position (case-insensitive keyword). -/
def matchMerchAt (kw : List Char) (prevIsWord : Bool) (l : List Char) : Option (List Char) :=
  if prevIsWord then none
  else
    match dropPrefixCI kw l with
    | none => none
    | some r => wsBacktrack r (takeRun pyWsChar r).1.length

/-- Leftmost search for the merchant pattern with keyword `kw`. -/
def searchMerchAux (kw : List Char) : Bool → List Char → Option (List Char)
  | _, [] => none
  | prevW, c :: t =>
    match matchMerchAt kw prevW (c :: t) with
    | some g => some g
    | none => searchMerchAux kw (isWordChar c) t

/-- `re.search(r"\b<kw>\s+(.+?)(?:\s+on\s+\d{4}-\d{2}-\d{2}\b|$)", txt,
re.IGNORECASE)`, returning group 1. -/
def searchMerch (kw l : List Char) : Option (List Char) := searchMerchAux kw false l

/-!
## Date extraction

`parse_sms` runs `re.search(DATE_RE, txt)` with
`DATE_RE = r"(\d{4}-\d{2}-\d{2}\s+\d{2}:\d{2}:\d{2})"`.
-/

/-- Try the date pattern at the current position, returning the matched
literal and its numeric components. -/
def matchDateAt (l : List Char) : Option (List Char × PyDateTime) :=
  match exactDigits 4 l with
  | none => none
  | some y =>
    match y.2 with
    | '-' :: r2 =>
      match exactDigits 2 r2 with
      | none => none
      | some mo =>
        match mo.2 with
        | '-' :: r4 =>
          match exactDigits 2 r4 with
          | none => none
          | some d =>
            let ws := takeRun pyWsChar d.2
            if ws.1.isEmpty then none
            else
              match exactDigits 2 ws.2 with
              | none => none
              | some h =>
                match h.2 with
                | ':' :: r8 =>
                  match exactDigits 2 r8 with
                  | none => none
                  | some mi =>
                    match mi.2 with
                    | ':' :: r10 =>
                      match exactDigits 2 r10 with
                      | none => none
                      | some s =>
                        some (y.1 ++ '-' :: mo.1 ++ '-' :: d.1 ++ ws.1 ++
                                h.1 ++ ':' :: mi.1 ++ ':' :: s.1,
                              ⟨natOfDigits y.1, natOfDigits mo.1, natOfDigits d.1,
                               natOfDigits h.1, natOfDigits mi.1, natOfDigits s.1, 0⟩)
                    | _ => none
                | _ => none
        | _ => none
    | _ => none

/-- Leftmost search for `DATE_RE`. -/
def searchDate : List Char → Option (List Char × PyDateTime)
  | [] => none
  | c :: t =>
    match matchDateAt (c :: t) with
    | some r => some r
    | none => searchDate t

/-!
## Hashing, direction, category heuristic, `parse_sms`
-/

/-- Model of `hashlib.sha256(s.encode("utf-8")).hexdigest()`.  The digest is
used by the code only as an identity key; it is abstracted as an injective
function of the input string (the identity), the standard collision-freedom
abstraction. -/
def sha256 (s : String) : String := s

/-- `detect_direction` of `src/main.py`: expense keywords take priority,
then income keywords, defaulting to `"expense"`. -/
def detect_direction (sms : String) : String :=
  let low := pyLower sms
  if strContains low "debited" || strContains low "debit" || strContains low "paid" ||
     strContains low "purchase" || strContains low "card purchase" ||
     strContains low "withdrawn" then "expense"
  else if strContains low "credited" || strContains low "credit" ||
          strContains low "deposit" || strContains low "salary" ||
          strContains low "received" || strContains low "refund" ||
          strContains low "transfer received" then "income"
  else "expense"

/-- The coffee keyword test of the category heuristic:
`any(k in merch_l for k in ["starbucks", "cafe", "coffee"])`. -/
def coffeeHit (ml : String) : Bool :=
  strContains ml "starbucks" || strContains ml "cafe" || strContains ml "coffee"

/-- The food keyword test of the category heuristic:
`any(k in merch_l for k in ["talabat", "pick", "restaurant", "burger", "pizza"])`. -/
def foodHit (ml : String) : Bool :=
  strContains ml "talabat" || strContains ml "pick" || strContains ml "restaurant" ||
  strContains ml "burger" || strContains ml "pizza"

/-- The category heuristic of `parse_sms`: keyword search over the
lowercased merchant text, defaulting to `"other"`. -/
def heurCategory (merchantClean : String) : String :=
  let ml := pyLower merchantClean
  if coffeeHit ml then "coffee" else if foodHit ml then "food" else "other"

/-- The dictionary produced by `parse_sms` (the fields the pipeline uses). -/
structure ParsedSms where
  direction : String
  amount : PyFloat
  currency : String
  merchant_raw : String
  merchant_clean : String
  category : String
  date_raw : String
  date_iso : String
  created_at : String
  sms_raw : String
deriving DecidableEq, Repr

/-- `parse_sms` of `src/main.py`.  `now` is the value of
`datetime.now(timezone.utc)` at extraction time. -/
def parse_sms (now : PyDateTime) (sms : String) : ParsedSms :=
  let txt := pyStrip sms
  let lower := pyLower txt
  let curAmt := searchCurAmt txt.data
  let currency := match curAmt with | some ca => ca.1 | none => "KWD"
  let amount := match curAmt with | some ca => ca.2 | none => PyFloat.zero
  let mMerch :=
    match searchMerch "for".data txt.data with
    | some g => some g
    | none => searchMerch "from".data txt.data
  let merchant_raw :=
    match mMerch with
    | some g => pyStripCommas (pyStrip (⟨g⟩ : String))
    | none => ""
  let merchant_clean := pyStrip merchant_raw
  let dateRes := searchDate txt.data
  let date_raw :=
    match dateRes with
    | some ld => (⟨ld.1⟩ : String)
    | none => strftimeRaw now
  let date_iso :=
    match dateRes with
    | some ld => if strptimeOk ld.2 then isoOfDateTime ld.2 else ""
    | none => isoOfDateTime now
  let direction := if strContains lower "credited" then "income" else "expense"
  let category := heurCategory merchant_clean
  { direction := direction, amount := amount, currency := currency,
    merchant_raw := merchant_raw, merchant_clean := merchant_clean,
    category := category, date_raw := date_raw, date_iso := date_iso,
    created_at := date_iso, sms_raw := txt }

/-!
## Rule engine
-/

/-- A row of the `rules` table (the columns `apply_rules` reads). -/
structure Rule where
  id : Nat
  user_id : String
  enabled : Bool
  priority : Int
  match_field : String
  match_type : String
  pattern : String
  set_category : Option String
  set_merchant_clean : Option String
deriving DecidableEq, Repr

/-- The SQL `ORDER BY priority ASC, id ASC` comparison. -/
def ruleLe (a b : Rule) : Bool :=
  decide (a.priority < b.priority) ||
  (a.priority == b.priority && decide (a.id ≤ b.id))

/-- Insertion into a list sorted by `ruleLe`. -/
def insertRuleSorted (r : Rule) : List Rule → List Rule
  | [] => [r]
  | x :: xs => if ruleLe x r then x :: insertRuleSorted r xs else r :: x :: xs

/-- Sort rules by `(priority ASC, id ASC)`, as the SQL query does. -/
def sortRules (l : List Rule) : List Rule := l.foldr insertRuleSorted []

/-- Python `a or b` on strings: the empty string (and a NULL column read as
an empty option collapsed to `""`) falls back to the default. -/
def pyOr (s dflt : String) : String := if s == "" then dflt else s

/-- The haystack selected by `match_field`: the lowercased merchant for
`"merchant"`, and the empty string otherwise
(`target = merch_l if match_field == "merchant" else ""`). -/
def ruleTarget (merchL : String) (r : Rule) : String :=
  if pyLower (pyOr r.match_field "merchant") == "merchant" then merchL else ""

/-- The match test of one rule in `apply_rules`.  `regexTest pat target`
abstracts `re.search(pat, target, re.IGNORECASE) is not None` with the
`re.error` handler folded in (an invalid pattern yields `false`). -/
def ruleMatches (regexTest : String → String → Bool) (merchL : String) (r : Rule) : Bool :=
  let mt := pyLower (pyOr r.match_type "contains")
  let target := ruleTarget merchL r
  if mt == "contains" then strContains target (pyLower r.pattern)
  else if mt == "equals" then pyLower r.pattern == target
  else if mt == "regex" then regexTest r.pattern target
  else false

/-- The effect of one rule on the current `(category, merchant_clean)`
pair: on a match, a truthy `set_category` overwrites the category and a
truthy `set_merchant_clean` overwrites the merchant. -/
def applyRuleTo (regexTest : String → String → Bool) (merchL : String)
    (cur : String × String) (r : Rule) : String × String :=
  if ruleMatches regexTest merchL r then
    (match r.set_category with
     | some c => if c == "" then cur.1 else c
     | none => cur.1,
     match r.set_merchant_clean with
     | some m => if m == "" then cur.2 else m
     | none => cur.2)
  else cur

/-- `apply_rules` of `src/main.py`: load the user's enabled rules ordered
by `(priority ASC, id ASC)` and fold every matching rule's effect over the
parsed `(category, merchant_clean)` pair — there is no break, so later
matching rules overwrite earlier ones.  The haystack `merch_l` is fixed at
entry from the merchant argument. -/
def apply_rules (regexTest : String → String → Bool) (rules : List Rule)
    (user_id merchant : String) (category merchant_clean : String) : String × String :=
  (sortRules (rules.filter (fun r => r.enabled && r.user_id == user_id))).foldl
    (applyRuleTo regexTest (pyLower merchant)) (category, merchant_clean)

/-!
## Store and the `/ingest` endpoint
-/

/-- A row of the `expenses` table (the columns the `/ingest` INSERT writes;
the INSERT statement does not set `direction`). -/
structure Row where
  id : Nat
  user_id : String
  sms : String
  amount : PyFloat
  currency : String
  merchant_raw : String
  merchant_clean : String
  category : String
  hash : String
  created_at : String
  date_raw : String
  date_iso : String
  sms_hash : String
  sms_raw : String
deriving DecidableEq, Repr

/-- The SQLite database state: the `expenses` rows in rowid order, the
`rules` table, and the next AUTOINCREMENT id for `expenses`. -/
structure Store where
  rows : List Row
  rules : List Rule
  nextId : Nat
deriving DecidableEq, Repr

/-- The JSON body returned by `/ingest`: `inserted`, `id`, and the
`existing.id` value when a duplicate was detected by the pre-insert
lookup (absent otherwise). -/
structure IngestResult where
  inserted : Bool
  id : Option Nat
  existing : Option Nat
deriving DecidableEq, Repr

/-- The content fingerprint computed by `ingest`:
`sha256((sms or "").strip())` where `sms = payload.sms.strip()`. -/
def ingestSmsHash (sms0 : String) : String := sha256 (pyStrip (pyStrip sms0))

/-- The parsed SMS as computed inside `ingest`
(`parse_sms(payload.sms.strip())`). -/
def ingestParsed (now : PyDateTime) (sms0 : String) : ParsedSms :=
  parse_sms now (pyStrip sms0)

/-- The `(category, merchant_clean)` pair after `apply_rules` inside
`ingest`. -/
def enrichedPair (regexTest : String → String → Bool) (now : PyDateTime)
    (rules : List Rule) (userId0 sms0 : String) : String × String :=
  apply_rules regexTest rules (pyStrip userId0) (ingestParsed now sms0).merchant_clean
    (ingestParsed now sms0).category (ingestParsed now sms0).merchant_clean

/-- The pre-image of the transaction fingerprint computed by `ingest`:
`f"{user_id}|{amount}|{currency}|{merchant_clean}|{date_iso}|{sms_hash}"`. -/
def rowHashInput (user_id : String) (amount : PyFloat)
    (currency merchant_clean date_iso sms_hash : String) : String :=
  user_id ++ "|" ++ pyFloatStr amount ++ "|" ++ currency ++ "|" ++
  merchant_clean ++ "|" ++ date_iso ++ "|" ++ sms_hash

/-- The transaction fingerprint (`row_hash`) computed by `ingest`; note
that the pre-image ends with the content fingerprint `sms_hash`. -/
def ingestRowHash (regexTest : String → String → Bool) (now : PyDateTime)
    (rules : List Rule) (userId0 sms0 : String) : String :=
  sha256 (rowHashInput (pyStrip userId0) (ingestParsed now sms0).amount
    (ingestParsed now sms0).currency (enrichedPair regexTest now rules userId0 sms0).2
    (ingestParsed now sms0).date_iso (ingestSmsHash sms0))

/-- The row the `/ingest` INSERT writes when it succeeds. -/
def newIngestRow (regexTest : String → String → Bool) (now : PyDateTime)
    (rules : List Rule) (nextId : Nat) (userId0 sms0 : String) : Row :=
  let parsed := ingestParsed now sms0
  { id := nextId, user_id := pyStrip userId0, sms := pyStrip sms0,
    amount := parsed.amount, currency := parsed.currency,
    merchant_raw := parsed.merchant_raw,
    merchant_clean := (enrichedPair regexTest now rules userId0 sms0).2,
    category := (enrichedPair regexTest now rules userId0 sms0).1,
    hash := ingestRowHash regexTest now rules userId0 sms0,
    created_at := parsed.created_at, date_raw := parsed.date_raw,
    date_iso := parsed.date_iso, sms_hash := ingestSmsHash sms0,
    sms_raw := parsed.sms_raw }

/-- The `/ingest` handler with the two storage interactions made explicit:
the duplicate pre-check (`SELECT id FROM expenses WHERE sms_hash = ?`,
user-independent) reads `checkRows`, while the INSERT's unique indexes
(`ux_expenses_hash` on `hash`, `idx_expenses_sms_hash` on `sms_hash`) are
evaluated against `store.rows`.  A sequential call passes `store.rows` for
both; a concurrent identical submission that wins the race between the two
steps is represented by a `store` that already contains the winning row
while `checkRows` does not.  A violated unique index raises
`sqlite3.IntegrityError`, which the handler turns into
`{"inserted": False, "id": None}` without re-querying. -/
def ingestWith (regexTest : String → String → Bool) (now : PyDateTime)
    (checkRows : List Row) (store : Store) (userId0 sms0 : String) :
    IngestResult × Store :=
  let parsed := ingestParsed now sms0
  let _direction := if parsed.direction == "" then detect_direction (pyStrip sms0)
                    else parsed.direction
  let sms_hash := ingestSmsHash sms0
  let row_hash := ingestRowHash regexTest now store.rules userId0 sms0
  match checkRows.find? (fun r => r.sms_hash == sms_hash) with
  | some r => ({ inserted := false, id := none, existing := some r.id }, store)
  | none =>
    if store.rows.any (fun r => r.hash == row_hash || r.sms_hash == sms_hash) then
      ({ inserted := false, id := none, existing := none }, store)
    else
      ({ inserted := true, id := some store.nextId, existing := none },
       { rows := store.rows ++ [newIngestRow regexTest now store.rules store.nextId userId0 sms0],
         rules := store.rules, nextId := store.nextId + 1 })

/-- The `/ingest` handler `ingest` of `src/main.py` run sequentially: the
duplicate pre-check and the INSERT constraints see the same rows. -/
def ingest (regexTest : String → String → Bool) (now : PyDateTime)
    (store : Store) (userId0 sms0 : String) : IngestResult × Store :=
  ingestWith regexTest now store.rows store userId0 sms0

/-- The raw request body before pydantic validation: each field is present
or absent (`user_id` is populated from the `userid` alias or the field
name). -/
structure RawRequest where
  userid : Option String
  sms : Option String
deriving DecidableEq, Repr

/-- The outcome visible to the HTTP caller: a pydantic validation error
(HTTP 422, the request never reaches the handler) or the handler's JSON
body. -/
inductive ApiResponse where
  | validationError : ApiResponse
  | ok : IngestResult → ApiResponse
deriving DecidableEq, Repr

/-- The `/ingest` endpoint including pydantic validation of
`IngestRequest`: both `user_id` and `sms` are required fields (of type
`str`, so the empty string passes validation). -/
def handleIngest (regexTest : String → String → Bool) (now : PyDateTime)
    (store : Store) (req : RawRequest) : ApiResponse × Store :=
  match req.userid, req.sms with
  | some u, some s =>
    let r := ingest regexTest now store u s
    (ApiResponse.ok r.1, r.2)
  | _, _ => (ApiResponse.validationError, store)

/-- Modelled from the spec (§4.1 Text Normalizer): canonical text with all
runs of whitespace collapsed to single spaces and leading/trailing
whitespace removed.  This definition follows the spec's words and is used
only to express that two texts differ in incidental whitespace formatting;
the code itself contains no such collapser. -/
def collapseWsAux : Bool → List Char → List Char
  | _, [] => []
  | prevWs, c :: t =>
    if pyWsChar c then
      (if prevWs then [] else [' ']) ++ collapseWsAux true t
    else c :: collapseWsAux false t

/-- Modelled from the spec: the Text Normalizer (whitespace collapse plus
trim). -/
def specNormalize (s : String) : String :=
  ⟨stripEndsOn pyWsChar (collapseWsAux false s.data)⟩

/-!
## Shared fixtures and helper lemmas
-/

/-- A concrete extraction-time clock value used in concrete instances. -/
def testNow : PyDateTime := ⟨2026, 2, 3, 12, 30, 45, 0⟩

/-- A concrete regex oracle (no rule regex matches); concrete instances use
only `contains`/`equals` rules, which never consult the oracle. -/
def noRegex : String → String → Bool := fun _ _ => false

/-- A freshly initialised database. -/
def emptyStore : Store := ⟨[], [], 1⟩

theorem parse_sms_currency (now : PyDateTime) (s : String) :
    (parse_sms now s).currency =
      (match searchCurAmt (pyStrip s).data with
       | some ca => ca.1
       | none => "KWD") := rfl

theorem parse_sms_amount (now : PyDateTime) (s : String) :
    (parse_sms now s).amount =
      (match searchCurAmt (pyStrip s).data with
       | some ca => ca.2
       | none => PyFloat.zero) := rfl

theorem parse_sms_category (now : PyDateTime) (s : String) :
    (parse_sms now s).category = heurCategory (parse_sms now s).merchant_clean := rfl

theorem parse_sms_date_iso (now : PyDateTime) (s : String) :
    (parse_sms now s).date_iso =
      (match searchDate (pyStrip s).data with
       | some ld => if strptimeOk ld.2 then isoOfDateTime ld.2 else ""
       | none => isoOfDateTime now) := rfl

theorem parse_sms_created_at (now : PyDateTime) (s : String) :
    (parse_sms now s).created_at = (parse_sms now s).date_iso := rfl

theorem parse_sms_date_raw (now : PyDateTime) (s : String) :
    (parse_sms now s).date_raw =
      (match searchDate (pyStrip s).data with
       | some ld => (⟨ld.1⟩ : String)
       | none => strftimeRaw now) := rfl

theorem find?_append_of_none {α : Type} {p : α → Bool} {l1 : List α} (l2 : List α)
    (h : l1.find? p = none) : (l1 ++ l2).find? p = l2.find? p := by
  induction l1 with
  | nil => rfl
  | cons a t ih =>
    by_cases hp : p a = true
    · rw [List.find?_cons_of_pos _ hp] at h
      exact absurd h (by simp)
    · rw [List.find?_cons_of_neg _ hp] at h
      rw [List.cons_append, List.find?_cons_of_neg _ hp]
      exact ih h

theorem filter_eq_nil_of_all_false {α : Type} {p : α → Bool} {l : List α}
    (h : ∀ x ∈ l, p x = false) : l.filter p = [] := by
  induction l with
  | nil => rfl
  | cons a t ih =>
    rw [List.filter_cons, h a (List.mem_cons_self a t)]
    exact ih fun x hx => h x (List.mem_cons_of_mem a hx)

theorem any_eq_false_of_all_false {α : Type} {p : α → Bool} {l : List α}
    (h : ∀ x ∈ l, p x = false) : l.any p = false := by
  induction l with
  | nil => rfl
  | cons a t ih =>
    rw [List.any_cons, h a (List.mem_cons_self a t)]
    exact ih fun x hx => h x (List.mem_cons_of_mem a hx)

theorem pyLower_eq_empty_iff (s : String) : pyLower s = "" ↔ s = "" := by
  constructor
  · intro h
    have hd := congrArg String.data h
    simp only [pyLower] at hd
    have : s.data = [] := List.map_eq_nil_iff.1 hd
    cases s
    simp_all
  · intro h
    rw [h]
    rfl

theorem matchCurAmtAt_code {pw : Bool} {l : List Char} {c : String} {a : PyFloat}
    (h : matchCurAmtAt pw l = some (c, a)) :
    c = "KWD" ∨ c = "USD" ∨ c = "EUR" := by
  unfold matchCurAmtAt at h
  split at h
  · exact absurd h (by simp)
  · split at h
    · obtain ⟨x, -, hx⟩ := Option.map_eq_some'.1 h
      exact Or.inl (congrArg Prod.fst hx).symm
    · split at h
      · obtain ⟨x, -, hx⟩ := Option.map_eq_some'.1 h
        exact Or.inr (Or.inl (congrArg Prod.fst hx).symm)
      · split at h
        · obtain ⟨x, -, hx⟩ := Option.map_eq_some'.1 h
          exact Or.inr (Or.inr (congrArg Prod.fst hx).symm)
        · exact absurd h (by simp)

theorem searchCurAmtAux_code (l : List Char) : ∀ (pw : Bool) {c : String} {a : PyFloat},
    searchCurAmtAux pw l = some (c, a) → c = "KWD" ∨ c = "USD" ∨ c = "EUR" := by
  induction l with
  | nil => intro pw c a h; exact absurd h (by simp [searchCurAmtAux])
  | cons ch t ih =>
    intro pw c a h
    unfold searchCurAmtAux at h
    split at h
    · next heq =>
      injection h with h1
      subst h1
      exact matchCurAmtAt_code heq
    · exact ih _ h

/-- C10: the extractor recognizes a currency only from the fixed set
{KWD, USD, EUR}; on every text where the pattern
`\b(KWD|USD|EUR)\s+([0-9]+(?:\.[0-9]+)?)\b` finds no match (a bare number,
or another code such as GBP before the number), the result is
`currency = "KWD"` and `amount = 0.0`; hence the amount is nonzero only
when one of the three codes precedes the numeric literal. -/
theorem C10_currency_fixed_set (now : PyDateTime) (s : String) :
    ((parse_sms now s).currency = "KWD" ∨ (parse_sms now s).currency = "USD" ∨
      (parse_sms now s).currency = "EUR") ∧
    (searchCurAmt (pyStrip s).data = none →
      (parse_sms now s).currency = "KWD" ∧ (parse_sms now s).amount = PyFloat.zero) := by
  constructor
  · rw [parse_sms_currency]
    cases hs : searchCurAmt (pyStrip s).data with
    | none => exact Or.inl rfl
    | some ca =>
      obtain ⟨c, a⟩ := ca
      exact searchCurAmtAux_code _ false hs
  · intro h
    rw [parse_sms_currency, parse_sms_amount, h]
    exact ⟨rfl, rfl⟩

/-- Witness for C10 at a text with a foreign code and a bare number. -/
theorem C10_currency_fixed_set_witness :
    searchCurAmt (pyStrip "GBP 5 paid and 3.2 more").data = none ∧
    (parse_sms testNow "GBP 5 paid and 3.2 more").currency = "KWD" ∧
    (parse_sms testNow "GBP 5 paid and 3.2 more").amount = PyFloat.zero :=
  ⟨by decide, (C10_currency_fixed_set testNow "GBP 5 paid and 3.2 more").2 (by decide)⟩

theorem heurCategory_ne_empty (m : String) : heurCategory m ≠ "" := by
  simp only [heurCategory]
  split
  · decide
  · split <;> decide

theorem pairFst {A B : Type} (a : A) (b : B) : (a, b).1 = a := rfl

theorem applyRules_fst_ne_empty (rt : String → String → Bool) (merchL : String)
    (l : List Rule) : ∀ (cat0 mc0 : String), cat0 ≠ "" →
    (l.foldl (applyRuleTo rt merchL) (cat0, mc0)).1 ≠ "" := by
  induction l with
  | nil => intro cat0 mc0 h; exact h
  | cons r t ih =>
    intro cat0 mc0 h
    rw [List.foldl_cons]
    unfold applyRuleTo
    split
    · refine ih _ _ ?_
      cases hc : r.set_category with
      | none => exact h
      | some c =>
        by_cases hc0 : c = ""
        · simp [hc0]
          exact h
        · simp [hc0]
    · exact ih _ _ h

theorem enrichedPair_eq (rt : String → String → Bool) (now : PyDateTime)
    (rules : List Rule) (u s : String) :
    enrichedPair rt now rules u s =
      (sortRules (rules.filter (fun r => r.enabled && r.user_id == pyStrip u))).foldl
        (applyRuleTo rt (pyLower (ingestParsed now s).merchant_clean))
        ((ingestParsed now s).category, (ingestParsed now s).merchant_clean) := rfl

theorem ingestParsed_category (now : PyDateTime) (s : String) :
    (ingestParsed now s).category = heurCategory (ingestParsed now s).merchant_clean := by
  unfold ingestParsed
  exact parse_sms_category now (pyStrip s)

theorem heurCategory_eq_other {m : String} (h2 : coffeeHit (pyLower m) = false)
    (h3 : foodHit (pyLower m) = false) : heurCategory m = "other" := by
  simp [heurCategory, h2, h3]

/-- C2: for every text (including the empty string and text with no
recognizable currency/amount/merchant/date) the pipeline is total by
construction — every Python raise-site of `parse_sms`/`ingest` is modelled
and returns a value — and the record fields handed to the INSERT satisfy:
the category is never null/empty, and when nothing matched (the user has
no enabled rules and no heuristic keyword occurs in the merchant text) the
category is exactly `"other"`.  The merchant fields are `String`-valued
(never null) by construction, with the empty string as their default. -/
theorem C2_default_totality (rt : String → String → Bool) (now : PyDateTime)
    (store : Store) (u s : String) :
    (enrichedPair rt now store.rules u s).1 ≠ "" ∧
    (store.rules.filter (fun r => r.enabled && r.user_id == pyStrip u) = [] →
      coffeeHit (pyLower (ingestParsed now s).merchant_clean) = false →
      foodHit (pyLower (ingestParsed now s).merchant_clean) = false →
      (enrichedPair rt now store.rules u s).1 = "other") := by
  constructor
  · have hcat : (ingestParsed now s).category ≠ "" := by
      rw [ingestParsed_category]
      exact heurCategory_ne_empty _
    rw [enrichedPair_eq]
    exact applyRules_fst_ne_empty rt _ _ _ _ hcat
  · intro h1 h2 h3
    rw [enrichedPair_eq, h1]
    rw [show sortRules [] = [] from rfl, List.foldl_nil, pairFst]
    rw [ingestParsed_category]
    exact heurCategory_eq_other h2 h3

/-- Witness for C2 at an unparseable text with no rules configured. -/
theorem C2_default_totality_witness :
    (enrichedPair noRegex testNow emptyStore.rules "pedro" "hello").1 ≠ "" ∧
    (enrichedPair noRegex testNow emptyStore.rules "pedro" "hello").1 = "other" :=
  ⟨(C2_default_totality noRegex testNow emptyStore "pedro" "hello").1,
   (C2_default_totality noRegex testNow emptyStore "pedro" "hello").2 rfl (by decide) (by decide)⟩

/-- C5 counterexample: two texts that differ only in an internal run of
spaces (the spec's normalizer maps them to the same canonical text), yet
`ingest` computes different content fingerprints for them, because the
code only strips leading/trailing whitespace and never collapses internal
runs. -/
theorem C5_counterexample :
    specNormalize "pay  shop" = specNormalize "pay shop" ∧
    ingestSmsHash "pay  shop" ≠ ingestSmsHash "pay shop" := by decide

/-- C5 amended: the content fingerprint is a pure function of the
*stripped* text (leading/trailing whitespace removed, internal whitespace
preserved): two texts with the same stripped form get the same
fingerprint. -/
theorem C5_fingerprint_of_stripped_text (s1 s2 : String)
    (h : pyStrip s1 = pyStrip s2) : ingestSmsHash s1 = ingestSmsHash s2 := by
  unfold ingestSmsHash sha256
  rw [h]

/-- Witness for the amended C5 at texts differing in outer whitespace. -/
theorem C5_fingerprint_of_stripped_text_witness :
    ingestSmsHash "  pay shop" = ingestSmsHash "pay shop  " :=
  C5_fingerprint_of_stripped_text "  pay shop" "pay shop  " (by decide)

/-- A first concrete text for C4. -/
def t4a : String := "KWD 3.5 debited for STARBUCKS on 2026-01-15 10:00:00"

/-- A second concrete text for C4: same user, amount, currency, merchant
and timestamp, different wording. -/
def t4b : String := "KWD 3.5 paid for STARBUCKS on 2026-01-15 10:00:00"

/-- C4 counterexample: two messages for the same user whose extracted
tuple (amount, currency, merchant_clean, occurred_at) is identical but
whose text differs produce *different* transaction fingerprints, because
the `row_hash` pre-image also includes `sms_hash`. -/
theorem C4_counterexample :
    (ingestParsed testNow t4a).amount = (ingestParsed testNow t4b).amount ∧
    (ingestParsed testNow t4a).currency = (ingestParsed testNow t4b).currency ∧
    (enrichedPair noRegex testNow [] "pedro" t4a).2 =
      (enrichedPair noRegex testNow [] "pedro" t4b).2 ∧
    (ingestParsed testNow t4a).date_iso = (ingestParsed testNow t4b).date_iso ∧
    ingestRowHash noRegex testNow [] "pedro" t4a ≠
      ingestRowHash noRegex testNow [] "pedro" t4b := by decide

/-- C4 amended: the transaction fingerprint is a deterministic function of
the tuple `(user_id, amount, currency, merchant_clean, occurred_at)`
*extended with the content fingerprint of the text*: messages agree on the
fingerprint when they agree on all six components. -/
theorem C4_fingerprint_of_tuple_and_content (u u' : String) (a a' : PyFloat)
    (c c' m m' d d' cf cf' : String)
    (h1 : u = u') (h2 : a = a') (h3 : c = c') (h4 : m = m') (h5 : d = d')
    (h6 : cf = cf') :
    sha256 (rowHashInput u a c m d cf) = sha256 (rowHashInput u' a' c' m' d' cf') := by
  rw [h1, h2, h3, h4, h5, h6]

/-- Witness for the amended C4. -/
theorem C4_fingerprint_of_tuple_and_content_witness :
    sha256 (rowHashInput "pedro" ⟨3, ['5']⟩ "KWD" "SHOP" "2026-01-15T10:00:00+00:00" "x") =
      sha256 (rowHashInput "pedro" ⟨3, ['5']⟩ "KWD" "SHOP" "2026-01-15T10:00:00+00:00" "x") :=
  C4_fingerprint_of_tuple_and_content "pedro" "pedro" ⟨3, ['5']⟩ ⟨3, ['5']⟩ "KWD" "KWD"
    "SHOP" "SHOP" "2026-01-15T10:00:00+00:00" "2026-01-15T10:00:00+00:00" "x" "x"
    rfl rfl rfl rfl rfl rfl

/-- A concrete text containing a `DATE_RE`-shaped substring with month 13,
which `strptime` rejects. -/
def t6 : String := "paid on 2026-13-01 10:00:00"

/-- C6 counterexample: on a text whose date-shaped substring fails to
parse, extraction does *not* fall back to the current time: `date_iso`
(and `created_at`, the stored timestamp) become the empty string, and
`date_raw` keeps the unparsed literal. -/
theorem C6_counterexample :
    (parse_sms testNow t6).date_iso = "" ∧
    (parse_sms testNow t6).created_at = "" ∧
    (parse_sms testNow t6).date_raw = "2026-13-01 10:00:00" ∧
    (parse_sms testNow t6).date_iso ≠ isoOfDateTime testNow := by decide

/-- C6 amended: for every text in which `DATE_RE` matches a literal whose
components `strptime` rejects, extraction raises no exception, but instead
of the current time the stored timestamp fields `date_iso` and
`created_at` are the empty string, and `date_raw` holds the unparsed
literal text. -/
theorem C6_malformed_date_empty_iso (now : PyDateTime) (s : String)
    (lit : List Char) (dc : PyDateTime)
    (hsd : searchDate (pyStrip s).data = some (lit, dc))
    (hbad : strptimeOk dc = false) :
    (parse_sms now s).date_iso = "" ∧ (parse_sms now s).created_at = "" ∧
    (parse_sms now s).date_raw = (⟨lit⟩ : String) := by
  have hiso : (parse_sms now s).date_iso = "" := by
    rw [parse_sms_date_iso, hsd]
    simp only [hbad]
    rfl
  refine ⟨hiso, ?_, ?_⟩
  · rw [parse_sms_created_at]
    exact hiso
  · rw [parse_sms_date_raw, hsd]

/-- Witness for the amended C6 at a date with day 30 in February. -/
theorem C6_malformed_date_empty_iso_witness :
    (parse_sms testNow "on 2026-02-30 09:00:00").date_iso = "" ∧
    (parse_sms testNow "on 2026-02-30 09:00:00").created_at = "" ∧
    (parse_sms testNow "on 2026-02-30 09:00:00").date_raw =
      (⟨"2026-02-30 09:00:00".data⟩ : String) :=
  C6_malformed_date_empty_iso testNow "on 2026-02-30 09:00:00"
    "2026-02-30 09:00:00".data ⟨2026, 2, 30, 9, 0, 0, 0⟩ (by decide) (by decide)

/-- C7 counterexample: a request with a present `user_id` and *empty* text
is not rejected: it passes pydantic validation, enters the pipeline, and
persists a record (here on a fresh store: `inserted = true`, one row
stored).  Only a structurally missing field is rejected. -/
theorem C7_counterexample :
    (handleIngest noRegex testNow emptyStore ⟨some "pedro", some ""⟩).1 =
      ApiResponse.ok ⟨true, some 1, none⟩ ∧
    (handleIngest noRegex testNow emptyStore ⟨some "pedro", some ""⟩).2.rows.length = 1 := by
  decide

/-- C7 amended: only requests with a structurally missing `user_id` or
`sms` field are rejected before the pipeline (pydantic validation, HTTP
422), leaving the store untouched; an empty text passes validation and is
ingested with best-effort defaults. -/
theorem C7_missing_field_rejected (rt : String → String → Bool) (now : PyDateTime)
    (store : Store) (req : RawRequest)
    (h : req.userid = none ∨ req.sms = none) :
    handleIngest rt now store req = (ApiResponse.validationError, store) := by
  rcases req with ⟨ou, os⟩
  rcases h with h | h
  · dsimp only at h
    subst h
    cases os <;> rfl
  · dsimp only at h
    subst h
    cases ou <;> rfl

/-- Witness for the amended C7: a request without a `user_id` field. -/
theorem C7_missing_field_rejected_witness :
    handleIngest noRegex testNow emptyStore ⟨none, some "KWD 1.0 paid"⟩ =
      (ApiResponse.validationError, emptyStore) :=
  C7_missing_field_rejected noRegex testNow emptyStore ⟨none, some "KWD 1.0 paid"⟩
    (Or.inl rfl)

/-- Evaluation of `ingestWith` on the constraint-violation path: the
pre-check misses, the INSERT hits a unique index, and the handler returns
`inserted = false` with no identifier at all. -/
theorem ingestWith_integrityError (rt : String → String → Bool) (now : PyDateTime)
    (checkRows : List Row) (store : Store) (u s : String)
    (hfind : checkRows.find? (fun q => q.sms_hash == ingestSmsHash s) = none)
    (hany : store.rows.any (fun q => q.hash == ingestRowHash rt now store.rules u s ||
              q.sms_hash == ingestSmsHash s) = true) :
    ingestWith rt now checkRows store u s =
      ({ inserted := false, id := none, existing := none }, store) := by
  simp only [ingestWith]
  rw [hfind, hany]
  rfl

/-- The text used in the C8 race scenario. -/
def t8 : String := "KWD 9.0 paid for GYM"

/-- The row persisted by a concurrent identical submission that won the
race: same content fingerprint, already committed before our INSERT. -/
def winnerRow : Row :=
  { id := 7, user_id := "maria", sms := pyStrip t8, amount := ⟨9, []⟩,
    currency := "KWD", merchant_raw := "GYM", merchant_clean := "GYM",
    category := "other", hash := "maria|9.0|KWD|GYM|2026-02-03T12:00:00+00:00|KWD 9.0 paid for GYM",
    created_at := "2026-02-03T12:00:00+00:00", date_raw := "2026-02-03 12:00:00",
    date_iso := "2026-02-03T12:00:00+00:00", sms_hash := ingestSmsHash t8,
    sms_raw := pyStrip t8 }

/-- The store as seen by our INSERT after the winner committed. -/
def store8 : Store := ⟨[winnerRow], [], 8⟩

/-- C8 counterexample: when the uniqueness constraint rejects the INSERT
(the duplicate pre-check saw no row, but the winner committed in between),
`ingest` returns `inserted = false` with `id = None` and *no* `existing`
identifier: it does not re-query for the winning row, so the caller never
learns the winner's record id (though no raw constraint error is
surfaced). -/
theorem C8_counterexample :
    (ingestWith noRegex testNow [] store8 "pedro" t8).1.inserted = false ∧
    (ingestWith noRegex testNow [] store8 "pedro" t8).1.id = none ∧
    (ingestWith noRegex testNow [] store8 "pedro" t8).1.existing = none ∧
    (ingestWith noRegex testNow [] store8 "pedro" t8).1.existing ≠ some winnerRow.id := by
  decide

/-- C8 amended: whenever the storage layer's uniqueness constraint rejects
the insert, `ingest` recovers locally and surfaces no raw
constraint-violation error, but it does not re-query for the winning row:
it returns `inserted = false` with `id = None` and no existing identifier,
leaving the store unchanged. -/
theorem C8_constraint_violation_no_requery (rt : String → String → Bool)
    (now : PyDateTime) (checkRows : List Row) (store : Store) (u s : String)
    (hfind : checkRows.find? (fun q => q.sms_hash == ingestSmsHash s) = none)
    (hany : store.rows.any (fun q => q.hash == ingestRowHash rt now store.rules u s ||
              q.sms_hash == ingestSmsHash s) = true) :
    ingestWith rt now checkRows store u s =
      ({ inserted := false, id := none, existing := none }, store) :=
  ingestWith_integrityError rt now checkRows store u s hfind hany

/-- Witness for the amended C8 in the concrete race scenario. -/
theorem C8_constraint_violation_no_requery_witness :
    ingestWith noRegex testNow [] store8 "maria" t8 =
      ({ inserted := false, id := none, existing := none }, store8) :=
  C8_constraint_violation_no_requery noRegex testNow [] store8 "maria" t8
    (by decide) (by decide)

theorem newIngestRow_category (rt : String → String → Bool) (now : PyDateTime)
    (rules : List Rule) (nextId : Nat) (u s : String) :
    (newIngestRow rt now rules nextId u s).category = (enrichedPair rt now rules u s).1 := by
  simp only [newIngestRow]

theorem ruleLe_false_of_lt {A B : Rule} (h : A.priority < B.priority) :
    ruleLe B A = false := by
  unfold ruleLe
  have h1 : ¬ B.priority < A.priority := not_lt_of_gt h
  have h2 : B.priority ≠ A.priority := ne_of_gt h
  simp [h1, h2]

theorem sortRules_pair {A B : Rule} (h : ruleLe B A = false) :
    sortRules [A, B] = [A, B] := by
  show insertRuleSorted A (insertRuleSorted B []) = [A, B]
  show insertRuleSorted A [B] = [A, B]
  unfold insertRuleSorted
  rw [h]
  rfl

theorem applyRuleTo_matched_category (rt : String → String → Bool) (merchL : String)
    (cur : String × String) (r : Rule) (c : String)
    (hm : ruleMatches rt merchL r = true) (hc : r.set_category = some c)
    (hc0 : c ≠ "") : (applyRuleTo rt merchL cur r).1 = c := by
  unfold applyRuleTo
  rw [hm, if_pos rfl, pairFst, hc]
  show (if (c == "") = true then cur.1 else c) = c
  have hbeq : (c == "") = false := by simp [hc0]
  rw [hbeq]
  rfl

/-- A concrete rule with the lowest priority number (evaluated first). -/
def ruleA : Rule :=
  ⟨1, "pedro", true, 1, "merchant", "contains", "star", some "snacks", none⟩

/-- A concrete rule with a higher priority number (evaluated last). -/
def ruleB : Rule :=
  ⟨2, "pedro", true, 2, "merchant", "contains", "buck", some "drinks", none⟩

/-- A concrete text whose merchant is STARBUCKS, matched by both rules. -/
def t3 : String := "KWD 2.0 paid for STARBUCKS"

/-- C3 counterexample: both enabled rules match the merchant and both set
a category, rule A has the lower priority number, yet the category
persisted in the inserted row is the one set by B — the *last* matching
rule in `(priority ASC, id ASC)` order overwrites A's effect, because
`apply_rules` has no break. -/
theorem C3_counterexample :
    ruleMatches noRegex (pyLower (ingestParsed testNow t3).merchant_clean) ruleA = true ∧
    ruleMatches noRegex (pyLower (ingestParsed testNow t3).merchant_clean) ruleB = true ∧
    (newIngestRow noRegex testNow [ruleA, ruleB] 1 "pedro" t3).category = "drinks" ∧
    (newIngestRow noRegex testNow [ruleA, ruleB] 1 "pedro" t3).category ≠ "snacks" := by
  decide

/-- C3 amended: with two enabled rules A and B for the user where A has
the lower priority number, both matching the merchant and both setting a
category, the category persisted for the message is the one set by B: the
rule evaluation is a full pass in `(priority ASC, id ASC)` order in which
every matching rule applies and later matches overwrite earlier ones, so
the last matching rule wins, not the first. -/
theorem C3_last_matching_rule_wins (rt : String → String → Bool) (now : PyDateTime)
    (rules : List Rule) (nextId : Nat) (u s : String) (A B : Rule) (ca cb : String)
    (hflt : rules.filter (fun r => r.enabled && r.user_id == pyStrip u) = [A, B])
    (hpri : A.priority < B.priority)
    (_hmA : ruleMatches rt (pyLower (ingestParsed now s).merchant_clean) A = true)
    (hmB : ruleMatches rt (pyLower (ingestParsed now s).merchant_clean) B = true)
    (_hca : A.set_category = some ca) (_hca0 : ca ≠ "")
    (hcb : B.set_category = some cb) (hcb0 : cb ≠ "") :
    (newIngestRow rt now rules nextId u s).category = cb := by
  rw [newIngestRow_category, enrichedPair_eq, hflt,
    sortRules_pair (ruleLe_false_of_lt hpri), List.foldl_cons, List.foldl_cons,
    List.foldl_nil]
  exact applyRuleTo_matched_category rt _ _ B cb hmB hcb hcb0

/-- Witness for the amended C3 with the concrete rule pair. -/
theorem C3_last_matching_rule_wins_witness :
    (newIngestRow noRegex testNow [ruleA, ruleB] 5 "pedro" t3).category = "drinks" :=
  C3_last_matching_rule_wins noRegex testNow [ruleA, ruleB] 5 "pedro" t3 ruleA ruleB
    "snacks" "drinks" (by decide) (by decide) (by decide) (by decide) (by decide)
    (by decide) (by decide) (by decide)

theorem strContains_empty_hay (needle : String) (h : needle ≠ "") :
    strContains "" needle = false := by
  show needle.data.isEmpty = false
  cases needle with
  | mk d =>
    cases d with
    | nil => exact absurd rfl h
    | cons a t => rfl

/-- A concrete `match_field = "message"` rule whose pattern occurs in the
SMS text. -/
def msgRule : Rule :=
  ⟨3, "pedro", true, 1, "message", "contains", "debited", some "flagged", none⟩

/-- A concrete SMS containing the word "debited" in its text but not in
its merchant. -/
def t9 : String := "KWD 1.0 debited for STARBUCKS"

/-- C9 counterexample: a `message` rule whose pattern occurs in the SMS
text (but not in the merchant) does *not* match — the persisted category
stays the heuristic `"coffee"` instead of the rule's `"flagged"` — because
`apply_rules` evaluates `match_field != "merchant"` rules against the
empty string (the message text is not even passed to it). -/
theorem C9_counterexample :
    strContains (pyLower (pyStrip t9)) "debited" = true ∧
    strContains (pyLower (ingestParsed testNow t9).merchant_clean) "debited" = false ∧
    (newIngestRow noRegex testNow [msgRule] 1 "pedro" t9).category = "coffee" ∧
    (newIngestRow noRegex testNow [msgRule] 1 "pedro" t9).category ≠ "flagged" := by
  decide

/-- C9 amended: for every rule whose `match_field` is not `"merchant"`
(after the NULL/empty default and lowercasing), the matching haystack is
the empty string — the full message text is never consulted, indeed
`apply_rules` does not even receive it — so a `contains` or `equals` rule
with a nonempty pattern never matches, whatever the message contains. -/
theorem C9_message_rules_see_empty_haystack (rt : String → String → Bool)
    (merchL : String) (r : Rule)
    (hf0 : r.match_field ≠ "") (hf : pyLower r.match_field ≠ "merchant")
    (hmt : pyLower (pyOr r.match_type "contains") = "contains" ∨
           pyLower (pyOr r.match_type "contains") = "equals")
    (hp : r.pattern ≠ "") :
    ruleTarget merchL r = "" ∧ ruleMatches rt merchL r = false := by
  have hf0b : (r.match_field == "") = false := by simp [hf0]
  have hfb : (pyLower r.match_field == "merchant") = false := by simp [hf]
  have ht : ruleTarget merchL r = "" := by
    unfold ruleTarget pyOr
    rw [hf0b]
    show (if (pyLower r.match_field == "merchant") = true then merchL else "") = ""
    rw [hfb]
    rfl
  refine ⟨ht, ?_⟩
  have hpl : pyLower r.pattern ≠ "" := fun hx => hp ((pyLower_eq_empty_iff r.pattern).1 hx)
  simp only [ruleMatches]
  rw [ht]
  rcases hmt with hmt | hmt
  · rw [hmt]
    show strContains "" (pyLower r.pattern) = false
    exact strContains_empty_hay _ hpl
  · rw [hmt]
    show (pyLower r.pattern == "") = false
    exact beq_eq_false_iff_ne.mpr hpl

/-- Witness for the amended C9 with the concrete message rule. -/
theorem C9_message_rules_see_empty_haystack_witness :
    ruleTarget "starbucks" msgRule = "" ∧
    ruleMatches noRegex "starbucks" msgRule = false :=
  C9_message_rules_see_empty_haystack noRegex "starbucks" msgRule (by decide) (by decide)
    (Or.inl (by decide)) (by decide)

theorem newIngestRow_sms_hash (rt : String → String → Bool) (now : PyDateTime)
    (rules : List Rule) (nextId : Nat) (u s : String) :
    (newIngestRow rt now rules nextId u s).sms_hash = ingestSmsHash s := by
  simp only [newIngestRow]

theorem newIngestRow_id (rt : String → String → Bool) (now : PyDateTime)
    (rules : List Rule) (nextId : Nat) (u s : String) :
    (newIngestRow rt now rules nextId u s).id = nextId := by
  simp only [newIngestRow]

/-- Evaluation of `ingest` when the text is new and no unique index is
violated: the parsed, enriched row is appended with the next id. -/
theorem ingest_insert (rt : String → String → Bool) (now : PyDateTime)
    (store : Store) (u s : String)
    (hfind : store.rows.find? (fun q => q.sms_hash == ingestSmsHash s) = none)
    (hany : store.rows.any (fun q => q.hash == ingestRowHash rt now store.rules u s ||
             q.sms_hash == ingestSmsHash s) = false) :
    ingest rt now store u s =
      ({ inserted := true, id := some store.nextId, existing := none },
       { rows := store.rows ++ [newIngestRow rt now store.rules store.nextId u s],
         rules := store.rules, nextId := store.nextId + 1 }) := by
  simp only [ingest, ingestWith]
  rw [hfind, hany]
  rfl

/-- Evaluation of `ingest` when the duplicate pre-check finds a row with
the same content fingerprint: no insert, and the existing row's id is
returned. -/
theorem ingest_dup (rt : String → String → Bool) (now : PyDateTime)
    (store : Store) (u s : String) (r : Row)
    (hfind : store.rows.find? (fun q => q.sms_hash == ingestSmsHash s) = some r) :
    ingest rt now store u s =
      ({ inserted := false, id := none, existing := some r.id }, store) := by
  simp only [ingest, ingestWith]
  rw [hfind]

/-- C1: on a store holding no record with this text's content fingerprint
(and no colliding transaction fingerprint), calling `ingest` twice with
identical arguments inserts on the first call and deduplicates on the
second: the second call reports `inserted = false` and returns (in the
`existing` field) the identifier assigned by the first call, and the final
store holds exactly one record for that text.  The duplicate lookup is by
content fingerprint alone — the hypotheses and the pre-check quantify over
all rows regardless of their `user_id`. -/
theorem C1_ingest_idempotent (rt : String → String → Bool) (now1 now2 : PyDateTime)
    (store : Store) (u s : String)
    (hsms : ∀ q ∈ store.rows, (q.sms_hash == ingestSmsHash s) = false)
    (hhash : ∀ q ∈ store.rows, (q.hash == ingestRowHash rt now1 store.rules u s) = false) :
    (ingest rt now1 store u s).1.inserted = true ∧
    (ingest rt now2 (ingest rt now1 store u s).2 u s).1.inserted = false ∧
    (ingest rt now2 (ingest rt now1 store u s).2 u s).1.existing =
      (ingest rt now1 store u s).1.id ∧
    ((ingest rt now2 (ingest rt now1 store u s).2 u s).2.rows.filter
        (fun q => q.sms_hash == ingestSmsHash s)) =
      [newIngestRow rt now1 store.rules store.nextId u s] := by
  have hfind : store.rows.find? (fun q => q.sms_hash == ingestSmsHash s) = none := by
    rw [List.find?_eq_none]
    intro q hq
    simp [hsms q hq]
  have hany : store.rows.any (fun q => q.hash == ingestRowHash rt now1 store.rules u s ||
      q.sms_hash == ingestSmsHash s) = false :=
    any_eq_false_of_all_false fun q hq => by rw [hhash q hq, hsms q hq]; rfl
  have h1 := ingest_insert rt now1 store u s hfind hany
  have hpnew : ((newIngestRow rt now1 store.rules store.nextId u s).sms_hash ==
      ingestSmsHash s) = true := by
    rw [newIngestRow_sms_hash]
    exact beq_self_eq_true _
  have hfind2 : ((store.rows ++ [newIngestRow rt now1 store.rules store.nextId u s]).find?
      (fun q => q.sms_hash == ingestSmsHash s)) =
      some (newIngestRow rt now1 store.rules store.nextId u s) := by
    rw [find?_append_of_none _ hfind]
    exact List.find?_cons_of_pos _ hpnew
  have h2 := ingest_dup rt now2
    ⟨store.rows ++ [newIngestRow rt now1 store.rules store.nextId u s],
     store.rules, store.nextId + 1⟩ u s
    (newIngestRow rt now1 store.rules store.nextId u s) hfind2
  rw [h1]
  dsimp only
  rw [h2]
  dsimp only
  refine ⟨rfl, rfl, ?_, ?_⟩
  · rw [newIngestRow_id]
  · rw [List.filter_append, filter_eq_nil_of_all_false hsms, List.filter_cons, hpnew]
    rfl

/-- Witness for C1: ingesting the same text twice into a fresh store. -/
theorem C1_ingest_idempotent_witness :
    (ingest noRegex testNow emptyStore "pedro" "hi").1.inserted = true ∧
    (ingest noRegex testNow (ingest noRegex testNow emptyStore "pedro" "hi").2
        "pedro" "hi").1.inserted = false ∧
    (ingest noRegex testNow (ingest noRegex testNow emptyStore "pedro" "hi").2
        "pedro" "hi").1.existing = (ingest noRegex testNow emptyStore "pedro" "hi").1.id ∧
    ((ingest noRegex testNow (ingest noRegex testNow emptyStore "pedro" "hi").2
        "pedro" "hi").2.rows.filter (fun q => q.sms_hash == ingestSmsHash "hi")) =
      [newIngestRow noRegex testNow emptyStore.rules emptyStore.nextId "pedro" "hi"] :=
  C1_ingest_idempotent noRegex testNow testNow emptyStore "pedro" "hi"
    (by intro q hq; exact absurd hq (List.not_mem_nil q))
    (by intro q hq; exact absurd hq (List.not_mem_nil q))
